import Mathlib

/-!
Shallow embedding of `scripts/generate_profile_svgs.py`.

Python values are modelled as follows: JSON objects become structures with
`Option`-typed fields (`None`/missing key = `none`); network calls become
oracle functions whose `none` result models a raised exception (caught or
propagated exactly where the Python code catches or propagates); `datetime`
dates become day ordinals of type `Int` (Python `date` arithmetic with
`timedelta(days=·)` is isomorphic to integer arithmetic); Python `str` is
`String`, or `List Char` where per-character operations are embedded;
the unbounded `while True` pagination loop is given explicit fuel, with
`none` meaning the fuel bound was hit before the loop exited.
-/

namespace ProfileSvgs

/-- A JSON value appearing as a byte count in a languages map:
`isinstance(b, int)` distinguishes integers (Python `bool` is a subclass of
`int`; such values are covered by `int`) from everything else. -/
inductive JsonVal where
  | int (n : Int)
  | other
deriving DecidableEq

/-- One element of the JSON array returned by the `/users/{user}/repos`
endpoint, restricted to the keys the script reads. A `none` field models a
missing key (`r.get(k)` / `r.get(k, default)`). -/
structure RepoJson where
  name : Option String
  stargazers_count : Option Int
  languages_url : Option String
  default_branch : Option String
deriving DecidableEq

/-- The JSON object returned by the `/users/{user}` endpoint, restricted to
the keys the script reads. `login` is `Option` because `u["login"]` raises
`KeyError` when absent. -/
structure UserJson where
  login : Option String
  public_repos : Option Int
  followers : Option Int
deriving DecidableEq

/-- The `RepoInfo` dataclass (source lines 15-20). -/
structure RepoInfo where
  name : String
  stargazers_count : Int
  languages_url : Option String
  default_branch : Option String
deriving DecidableEq

/-- The `UserStats` dataclass (source lines 23-29). -/
structure UserStats where
  login : String
  public_repos : Int
  followers : Int
  stars_total : Int
  top_langs : List (String × Int)
deriving DecidableEq

/-- The `ActivityStats` dataclass (source lines 32-36): `days` pairs a calendar
day (as an ordinal) with a commit count. -/
structure ActivityStats where
  days : List (Int × Nat)
  prs_30d : Nat
  issues_30d : Nat
deriving DecidableEq

/-- Construction of a `RepoInfo` from one JSON array element
(source lines 78-85): `r.get("name", "")`, `int(r.get("stargazers_count", 0))`,
`r.get("languages_url")`, `r.get("default_branch")`. -/
def parseRepoInfo (r : RepoJson) : RepoInfo :=
  { name := r.name.getD ""
    stargazers_count := r.stargazers_count.getD 0
    languages_url := r.languages_url
    default_branch := r.default_branch }

/-- The loop body of `fetch_all_repos` (source lines 69-88), with explicit
fuel. `pages` is the oracle for the paginated repos endpoint: `pages p` is
the decoded JSON array for `page=p`. `fetched` counts pages fetched so far.
Returns `none` when the fuel runs out before the loop breaks. -/
def fetchAllReposGo (pages : Nat → List RepoJson) :
    Nat → Nat → List RepoInfo → Nat → Option (Nat × List RepoInfo)
  | 0, _, _, _ => none
  | fuel + 1, page, repos, fetched =>
    let batch := pages page
    if batch.isEmpty then
      some (fetched + 1, repos)
    else
      let repos' := repos ++ batch.map parseRepoInfo
      if batch.length < 100 then
        some (fetched + 1, repos')
      else
        fetchAllReposGo pages fuel (page + 1) repos' (fetched + 1)

/-- Function `fetch_all_repos` (source lines 66-89). On termination within `fuel`
iterations, returns the number of page fetches issued together with the
accumulated repo list. -/
def fetch_all_repos (pages : Nat → List RepoJson) (fuel : Nat) :
    Option (Nat × List RepoInfo) :=
  fetchAllReposGo pages fuel 1 [] 0

/-- A sample repos-endpoint JSON element used in concrete scenarios. -/
def rjSample : RepoJson :=
  { name := some "r", stargazers_count := some 0
    languages_url := none, default_branch := some "main" }

/-- Page oracle for a user with 150 repos, delivered as a full page of 100
followed by a page of 50 (all later pages empty). -/
def pages150 : Nat → List RepoJson := fun p =>
  if p = 1 then List.replicate 100 rjSample
  else if p = 2 then List.replicate 50 rjSample else []

/-- The 150-element repo list produced from `pages150`. -/
def repos150 : List RepoInfo := List.replicate 150 (parseRepoInfo rjSample)

/-- The initial day list of `fetch_activity_30d` (source line 116):
`[(str(start + timedelta(days=i)), 0) for i in range(31)]`, with dates as
day ordinals. -/
def dayList (start : Int) : List (Int × Nat) :=
  (List.range 31).map (fun (i : Nat) => (start + (i : Int), (0 : Nat)))

/-- The `day_index` dictionary (source line 117): index of a date in the
initial day list (first index whose date matches, as for a dict built by
enumeration). -/
def dayIndex (days : List (Int × Nat)) (d : Int) : Nat :=
  days.findIdx (fun p => p.1 == d)

/-- The per-day update loop of `fetch_activity_30d` (source lines 122-136):
iterate over a snapshot of the initial day list; on a successful commit
search for date `d`, overwrite slot `day_index[d]` with `(d, total)`; on a
raised exception (`search d = none`) leave the list unchanged. -/
def updateDays (search : Int → Option Nat) (days0 : List (Int × Nat)) :
    List (Int × Nat) :=
  days0.foldl
    (fun ds p =>
      match search p.1 with
      | some total => ds.set (dayIndex days0 p.1) (p.1, total)
      | none => ds)
    days0

/-- Function `fetch_activity_30d` (source lines 108-161). `today` is the ordinal of
`datetime.now(timezone.utc).date()`; `search d` is the parsed `total_count`
of the commit search for day `d` (`none` models a raised exception);
`prSearch` and `issueSearch` are the two whole-window searches, degraded to
the initial value 0 when they raise. -/
def fetch_activity_30d (today : Int) (search : Int → Option Nat)
    (prSearch issueSearch : Option Nat) : ActivityStats :=
  let start := today - 30
  let days := updateDays search (dayList start)
  { days := days, prs_30d := prSearch.getD 0, issues_30d := issueSearch.getD 0 }

/-- Reading `lang_bytes.get(lang, 0)` on the insertion-ordered dict, modelled as an
association list with unique keys kept in insertion order. -/
def dictGet (d : List (String × Int)) (k : String) (dflt : Int) : Int :=
  match d.find? (fun p => p.1 == k) with
  | some p => p.2
  | none => dflt

/-- Writing `lang_bytes[lang] = v` on the insertion-ordered dict: update in place
when the key exists, else append at the end. -/
def dictSet (d : List (String × Int)) (k : String) (v : Int) :
    List (String × Int) :=
  if d.any (fun p => p.1 == k) then
    d.map (fun p => if p.1 == k then (k, v) else p)
  else
    d ++ [(k, v)]

/-- Python truthiness of an optional string (`if not r.languages_url`):
`None` and the empty string are falsy. -/
def pyTruthyStr (o : Option String) : Bool :=
  match o with
  | none => false
  | some s => !s.isEmpty

/-- Whether a languages-map value passes the
`isinstance(b, int) and b > 0` guard (source line 102). -/
def isPosIntVal (v : JsonVal) : Bool :=
  match v with
  | JsonVal.int b => decide (0 < b)
  | JsonVal.other => false

/-- One iteration of the inner loop of `compute_top_languages`
(source lines 101-103): `lang_bytes[lang] = lang_bytes.get(lang, 0) + b`
for an entry whose value is an int greater than 0, otherwise no change. -/
def addLangEntry (acc : List (String × Int)) (p : String × JsonVal) :
    List (String × Int) :=
  match p.2 with
  | JsonVal.int b => if 0 < b then dictSet acc p.1 (dictGet acc p.1 0 + b) else acc
  | JsonVal.other => acc

/-- One iteration of the outer loop of `compute_top_languages`
(source lines 94-103): skip a repo with a falsy `languages_url`; a raised
language fetch (`langFetch r = none`) is caught by `except Exception:
continue` and contributes nothing; otherwise fold the repo's language map
into the aggregate. -/
def repoLangStep (langFetch : RepoInfo → Option (List (String × JsonVal)))
    (acc : List (String × Int)) (r : RepoInfo) : List (String × Int) :=
  if pyTruthyStr r.languages_url then
    match langFetch r with
    | none => acc
    | some langs => langs.foldl addLangEntry acc
  else acc

/-- The `lang_bytes` aggregate of `compute_top_languages`
(source lines 93-103). -/
def aggregateLangBytes (langFetch : RepoInfo → Option (List (String × JsonVal)))
    (repos : List RepoInfo) : List (String × Int) :=
  repos.foldl (repoLangStep langFetch) []

/-- Order used by `sorted(lang_bytes.items(), key=lambda x: x[1],
reverse=True)`: larger byte count first. -/
def byBytesDesc (a b : String × Int) : Prop := b.2 ≤ a.2

instance : DecidableRel byBytesDesc := fun a b =>
  inferInstanceAs (Decidable (b.2 ≤ a.2))

instance : IsTotal (String × Int) byBytesDesc :=
  ⟨fun a b => le_total b.2 a.2⟩

instance : IsTrans (String × Int) byBytesDesc :=
  ⟨fun _ _ _ h1 h2 => le_trans h2 h1⟩

/-- The expression `sorted(lang_bytes.items(), key=lambda x: x[1], reverse=True)[:limit]`
(source line 105). Python's Timsort and insertion sort are both correct
descending sorts by byte count; they can differ only in the relative order
of tied counts, which Python's spec leaves to input order and on which no
verified property depends. -/
def rankLanguages (lang_bytes : List (String × Int)) (limit : Nat) :
    List (String × Int) :=
  (List.insertionSort byBytesDesc lang_bytes).take limit

/-- Function `compute_top_languages` (source lines 92-105). -/
def compute_top_languages (langFetch : RepoInfo → Option (List (String × JsonVal)))
    (repos : List RepoInfo) (limit : Nat) : List (String × Int) :=
  rankLanguages (aggregateLangBytes langFetch repos) limit

/-- The sum `stars_total = sum(r.stargazers_count for r in repos)`
(source line 168). -/
def stars_total (repos : List RepoInfo) : Int :=
  (repos.map RepoInfo.stargazers_count).sum

/-- Function `fetch_stats` (source lines 164-180). `userJson = none` models a raised
(critical, uncaught) user lookup; a `none` from `fetch_all_repos` models a
critical repo-listing failure or fuel exhaustion; a missing `login` key
raises `KeyError`. All three propagate as `none`. -/
def fetch_stats (userJson : Option UserJson) (pages : Nat → List RepoJson)
    (fuel : Nat) (langFetch : RepoInfo → Option (List (String × JsonVal)))
    (today : Int) (search : Int → Option Nat)
    (prSearch issueSearch : Option Nat) : Option (UserStats × ActivityStats) :=
  match userJson with
  | none => none
  | some u =>
    match fetch_all_repos pages fuel with
    | none => none
    | some (_, repos) =>
      match u.login with
      | none => none
      | some login =>
        some ({ login := login
                public_repos := u.public_repos.getD 0
                followers := u.followers.getD 0
                stars_total := stars_total repos
                top_langs := compute_top_languages langFetch repos 10 },
              fetch_activity_30d today search prSearch issueSearch)

/-- Characters removed by Python's `str.strip()` with no argument
(ASCII whitespace; the script's env values are ASCII). -/
def isPySpace (c : Char) : Bool :=
  c == ' ' || c == '\t' || c == '\n' || c == '\r' || c == '\x0b' || c == '\x0c'

/-- Python `str.strip()`: drop leading and trailing whitespace. -/
def pyStrip (s : String) : String :=
  String.mk (((s.data.dropWhile isPySpace).reverse.dropWhile isPySpace).reverse)

/-- Observable outcome of `main` (source lines 370-392): a configuration
error returns its exit code after printing the given message to standard
error and writes nothing; an uncaught critical API failure crashes the
process (non-zero exit via the traceback/`SystemExit` path); success writes
the three SVG files and returns 0. -/
inductive MainResult where
  | configError (stderrMsg : String) (code : Int)
  | crashed
  | ok (written : List String) (code : Int)
deriving DecidableEq

/-- Function `main` (source lines 370-392). `github_token`/`github_user` are the raw
environment values (`none` = unset); the remaining parameters are the
oracles consumed by `fetch_stats`. File contents (pure string templating,
out of scope) are not modelled; `ok` records the paths written. -/
def main (github_token github_user : Option String) (userJson : Option UserJson)
    (pages : Nat → List RepoJson) (fuel : Nat)
    (langFetch : RepoInfo → Option (List (String × JsonVal)))
    (today : Int) (search : Int → Option Nat)
    (prSearch issueSearch : Option Nat) : MainResult :=
  let token := pyStrip (github_token.getD "")
  let user := pyStrip (github_user.getD "")
  if token.isEmpty then
    MainResult.configError "Missing GITHUB_TOKEN env var." 2
  else if user.isEmpty then
    MainResult.configError "Missing GITHUB_USER env var." 2
  else
    match fetch_stats userJson pages fuel langFetch today search prSearch issueSearch with
    | none => MainResult.crashed
    | some _ =>
      MainResult.ok ["assets/stats.svg", "assets/languages.svg", "assets/activity.svg"] 0

/-- Python `str.replace(c, rep)` for a single-character pattern `c`: every
occurrence of `c` (occurrences of a single character are exactly its
positions, and cannot overlap) is replaced by `rep`. -/
def replace1 (s : List Char) (c : Char) (rep : List Char) : List Char :=
  s.flatMap (fun a => if a = c then rep else [a])

/-- Entity text `&amp;`. -/
def ampRep : List Char := ['&', 'a', 'm', 'p', ';']

/-- Entity text `&lt;`. -/
def ltRep : List Char := ['&', 'l', 't', ';']

/-- Entity text `&gt;`. -/
def gtRep : List Char := ['&', 'g', 't', ';']

/-- Entity text `&quot;`. -/
def quotRep : List Char := ['&', 'q', 'u', 'o', 't', ';']

/-- Entity text `&#39;`. -/
def aposRep : List Char := ['&', '#', '3', '9', ';']

/-- Function `_escape` (source lines 50-57): the five chained `str.replace` calls,
ampersand first. -/
def _escape (s : List Char) : List Char :=
  replace1 (replace1 (replace1 (replace1 (replace1
    s '&' ampRep) '<' ltRep) '>' gtRep) '"' quotRep) '\'' aposRep

/-- Per-character escaping table: what `_escape` does to one character. -/
def escChar (a : Char) : List Char :=
  if a = '&' then ampRep
  else if a = '<' then ltRep
  else if a = '>' then gtRep
  else if a = '"' then quotRep
  else if a = '\'' then aposRep
  else [a]

/-- A sample user JSON used in concrete scenarios. -/
def ujSample : UserJson :=
  { login := some "octo", public_repos := some 2, followers := some 3 }

/-- The `UserStats` produced from `ujSample` and `pages150` with no
language data. -/
def stSample : UserStats :=
  { login := "octo", public_repos := 2, followers := 3
    stars_total := 0, top_langs := [] }

/-- The `ActivityStats` produced at `today = 0` when every search fails. -/
def actSample : ActivityStats :=
  { days := dayList (-30), prs_30d := 0, issues_30d := 0 }

/-- A parsed sample repo (no languages URL). -/
def riSample : RepoInfo := parseRepoInfo rjSample

/-- A sample repo exposing a languages endpoint. -/
def riUrl : RepoInfo :=
  { name := "u", stargazers_count := 1
    languages_url := some "http", default_branch := none }

/-- A language oracle whose map mixes a positive int, a non-positive int
and a non-int value. -/
def wfSample : RepoInfo → Option (List (String × JsonVal)) := fun _ =>
  some [("Py", JsonVal.int 5), ("Neg", JsonVal.int (-3)), ("Str", JsonVal.other)]

/-- Full characterization of the pagination loop, by induction on fuel:
on termination at overall page count `fetched + m`, the result extends the
accumulator with the parsed contents of pages `page, …, page + m - 1`, the
last fetched page has fewer than 100 items, and every earlier fetched page
has at least 100. -/
theorem fetchAllReposGo_spec (pages : Nat → List RepoJson) :
    ∀ (fuel page : Nat) (acc : List RepoInfo) (fetched k : Nat)
      (repos : List RepoInfo),
      fetchAllReposGo pages fuel page acc fetched = some (k, repos) →
      ∃ m, 1 ≤ m ∧ k = fetched + m ∧
        repos = acc ++
          ((List.range' page m).map (fun i => (pages i).map parseRepoInfo)).flatten ∧
        (pages (page + m - 1)).length < 100 ∧
        (∀ j, j < m - 1 → 100 ≤ (pages (page + j)).length) := by
  intro fuel
  induction fuel with
  | zero => intro page acc fetched k repos h; simp [fetchAllReposGo] at h
  | succ fuel ih =>
    intro page acc fetched k repos h
    rw [fetchAllReposGo] at h
    by_cases hemp : (pages page).isEmpty
    · rw [if_pos hemp] at h
      have hk : k = fetched + 1 ∧ repos = acc := by
        cases h; exact ⟨rfl, rfl⟩
      refine ⟨1, le_refl 1, hk.1, ?_, ?_, ?_⟩
      · rw [hk.2, List.range'_one]
        simp [List.isEmpty_iff.mp hemp]
      · have : (pages page).length = 0 := by
          rw [List.isEmpty_iff.mp hemp]; rfl
        simp [this]
      · intro j hj; omega
    · rw [if_neg hemp] at h
      by_cases hlen : (pages page).length < 100
      · rw [if_pos hlen] at h
        have hk : k = fetched + 1 ∧ repos = acc ++ (pages page).map parseRepoInfo := by
          cases h; exact ⟨rfl, rfl⟩
        refine ⟨1, le_refl 1, hk.1, ?_, by simpa using hlen, ?_⟩
        · rw [hk.2, List.range'_one]; simp
        · intro j hj; omega
      · rw [if_neg hlen] at h
        obtain ⟨m', hm1, hkm, hrep, hstop, hbig⟩ :=
          ih (page + 1) (acc ++ (pages page).map parseRepoInfo) (fetched + 1) k repos h
        refine ⟨m' + 1, by omega, by omega, ?_, ?_, ?_⟩
        · rw [hrep, List.range'_succ]
          simp [List.append_assoc]
        · have : page + (m' + 1) - 1 = page + 1 + m' - 1 := by omega
          rw [this]; exact hstop
        · intro j hj
          rcases Nat.eq_zero_or_pos j with hj0 | hjpos
          · subst hj0; simpa using le_of_not_lt hlen
          · obtain ⟨j', rfl⟩ := Nat.exists_eq_add_of_lt hjpos
            have : page + (j' + 1) = page + 1 + j' := by omega
            simp only [Nat.zero_add] at *
            rw [this]
            exact hbig j' (by omega)

/-- C1: whenever `fetch_all_repos` terminates having issued `k` page
fetches, it stopped exactly at the first page with fewer than 100 items
(an empty page has 0 < 100 items; every earlier fetched page had at least
100), the returned list is the concatenation of the parsed contents of the
`k` fetched pages, and its length is the sum of all fetched page sizes.
The 150-repo scenario (pages of 100 and 50 → 2 fetches, 150 repos) is
checked in the witness. -/
theorem fetch_all_repos_pagination (pages : Nat → List RepoJson) (fuel k : Nat)
    (repos : List RepoInfo) (h : fetch_all_repos pages fuel = some (k, repos)) :
    repos = ((List.range' 1 k).map (fun i => (pages i).map parseRepoInfo)).flatten ∧
    repos.length = ((List.range' 1 k).map (fun i => (pages i).length)).sum ∧
    (pages k).length < 100 ∧
    (∀ i, 1 ≤ i → i < k → 100 ≤ (pages i).length) := by
  obtain ⟨m, hm1, hkm, hrep, hstop, hbig⟩ :=
    fetchAllReposGo_spec pages fuel 1 [] 0 k repos h
  have hk : k = m := by omega
  subst hk
  have hflat :
      repos = ((List.range' 1 k).map (fun i => (pages i).map parseRepoInfo)).flatten := by
    simpa using hrep
  refine ⟨hflat, ?_, ?_, ?_⟩
  · rw [hflat, List.length_flatten, List.map_map]
    congr 1
    exact List.map_congr_left fun i _ => by simp
  · have : 1 + k - 1 = k := by omega
    rw [this] at hstop
    exact hstop
  · intro i h1 h2
    have := hbig (i - 1) (by omega)
    have heq : 1 + (i - 1) = i := by omega
    rwa [heq] at this

set_option maxRecDepth 4000 in
/-- Witness for C1 at the 150-repo scenario: exactly 2 page fetches, the
returned list has 150 elements, the second page (50 items) is where the
loop stopped. -/
theorem fetch_all_repos_pagination_witness :
    fetch_all_repos pages150 5 = some (2, repos150) ∧
    repos150.length = ((List.range' 1 2).map (fun i => (pages150 i).length)).sum ∧
    repos150.length = 150 ∧ (pages150 2).length < 100 := by
  have h : fetch_all_repos pages150 5 = some (2, repos150) := by rfl
  have hc := fetch_all_repos_pagination pages150 5 2 repos150 h
  exact ⟨h, hc.2.1, by decide, hc.2.2.1⟩

/-- Setting a list slot to the value it already holds leaves the list
unchanged. -/
theorem set_same_of_getElem {α : Type _} (l : List α) (i : Nat) (a : α)
    (h : i < l.length) (ha : l[i] = a) : l.set i a = l := by
  apply List.ext_getElem
  · simp
  · intro j hj1 hj2
    rw [List.getElem_set]
    split
    · next heq => subst heq; exact ha.symm
    · rfl

/-- The per-day update loop never changes the dates: it only overwrites a
slot with a pair carrying the very date stored there (via `day_index`). -/
theorem updateDays_foldl_map_fst (search : Int → Option Nat)
    (days0 : List (Int × Nat)) :
    ∀ (l ds : List (Int × Nat)), ds.map Prod.fst = days0.map Prod.fst →
      (l.foldl
        (fun ds p =>
          match search p.1 with
          | some total => ds.set (dayIndex days0 p.1) (p.1, total)
          | none => ds)
        ds).map Prod.fst = days0.map Prod.fst := by
  intro l
  induction l with
  | nil => intro ds h; simpa using h
  | cons p l ih =>
    intro ds h
    rw [List.foldl_cons]
    apply ih
    cases hs : search p.1 with
    | none => simpa [hs] using h
    | some total =>
      simp only [hs]
      rw [List.map_set, h]
      by_cases hlt : dayIndex days0 p.1 < days0.length
      · have hlt' : days0.findIdx (fun q => q.1 == p.1) < days0.length := hlt
        refine set_same_of_getElem _ _ _ (by simpa using hlt) ?_
        simp only [List.getElem_map]
        exact eq_of_beq (@List.findIdx_getElem _ (fun q => q.1 == p.1) days0 hlt')
      · rw [List.set_eq_of_length_le]
        simpa using le_of_not_lt hlt

/-- The dates of `updateDays search days0` coincide with those of `days0`. -/
theorem updateDays_map_fst (search : Int → Option Nat)
    (days0 : List (Int × Nat)) :
    (updateDays search days0).map Prod.fst = days0.map Prod.fst :=
  updateDays_foldl_map_fst search days0 days0 days0 rfl

/-- C2: for every run of `fetch_activity_30d` — whatever per-day searches
succeed or fail — the `days` list has exactly 31 entries, its dates are
exactly `today - 30, …, today` in order (strictly ascending, contiguous),
beginning 30 days before today and ending today. -/
theorem fetch_activity_30d_day_window (today : Int) (search : Int → Option Nat)
    (prSearch issueSearch : Option Nat) :
    (fetch_activity_30d today search prSearch issueSearch).days.length = 31 ∧
    (fetch_activity_30d today search prSearch issueSearch).days.map Prod.fst
      = (List.range 31).map (fun (i : Nat) => today - 30 + (i : Int)) ∧
    List.Chain' (fun a b => b = a + 1)
      ((fetch_activity_30d today search prSearch issueSearch).days.map Prod.fst) ∧
    ((fetch_activity_30d today search prSearch issueSearch).days.map Prod.fst).head?
      = some (today - 30) ∧
    ((fetch_activity_30d today search prSearch issueSearch).days.map Prod.fst).getLast?
      = some today := by
  have hfst : (fetch_activity_30d today search prSearch issueSearch).days.map Prod.fst
      = (List.range 31).map (fun (i : Nat) => today - 30 + (i : Int)) := by
    show (updateDays search (dayList (today - 30))).map Prod.fst = _
    rw [updateDays_map_fst]
    simp [dayList]
  refine ⟨?_, hfst, ?_, ?_, ?_⟩
  · have := congrArg List.length hfst
    simpa using this
  · rw [hfst, List.chain'_map]
    refine (List.chain'_range_succ _ 30).mpr ?_
    intro m hm
    show today - 30 + ((m + 1 : Nat) : Int) = today - 30 + (m : Int) + 1
    push_cast
    ring
  · rw [hfst, List.head?_map]
    have h0 : (List.range 31).head? = some 0 := by rfl
    rw [h0]
    simp
  · rw [hfst, List.getLast?_map]
    have h30 : (List.range 31).getLast? = some 30 := by rfl
    rw [h30]
    simp

/-- C3: the `stars_total` recorded in the `UserStats` built by
`fetch_stats` is `stars_total` of the fetched repo list, which equals the
sum over all fetched repo JSONs of their `stargazers_count`, a JSON with
the key absent contributing `0` (via `int(r.get("stargazers_count", 0))`). -/
theorem stars_total_sum (u : UserJson) (pages : Nat → List RepoJson)
    (fuel : Nat) (langFetch : RepoInfo → Option (List (String × JsonVal)))
    (today : Int) (search : Int → Option Nat) (prSearch issueSearch : Option Nat)
    (st : UserStats) (act : ActivityStats) (k : Nat) (repos : List RepoInfo)
    (hstats : fetch_stats (some u) pages fuel langFetch today search prSearch
        issueSearch = some (st, act))
    (hrepos : fetch_all_repos pages fuel = some (k, repos)) :
    st.stars_total = stars_total repos ∧
    stars_total repos =
      ((List.range' 1 k).map
        (fun i => ((pages i).map (fun j => j.stargazers_count.getD 0)).sum)).sum := by
  constructor
  · rw [fetch_stats, hrepos] at hstats
    cases hl : u.login with
    | none => rw [hl] at hstats; simp at hstats
    | some login =>
      rw [hl] at hstats
      have hpair := Option.some.inj hstats
      injection hpair with h1 h2
      subst h1
      rfl
  · obtain ⟨m, hm1, hkm, hrep, _, _⟩ :=
      fetchAllReposGo_spec pages fuel 1 [] 0 k repos hrepos
    have hk : k = m := by omega
    subst hk
    rw [stars_total, hrep]
    rw [List.nil_append, List.map_flatten, List.sum_flatten, List.map_map, List.map_map]
    congr 1
    refine List.map_congr_left fun i _ => ?_
    simp [List.map_map]
    rfl

set_option maxRecDepth 8000 in
/-- Witness for C3: the 150-repo scenario with all-zero star counts. -/
theorem stars_total_sum_witness :
    fetch_stats (some ujSample) pages150 5 (fun _ => none) 0 (fun _ => none)
        none none = some (stSample, actSample) ∧
    fetch_all_repos pages150 5 = some (2, repos150) ∧
    stSample.stars_total = stars_total repos150 := by
  have h1 : fetch_stats (some ujSample) pages150 5 (fun _ => none) 0
      (fun _ => none) none none = some (stSample, actSample) := by decide
  have h2 : fetch_all_repos pages150 5 = some (2, repos150) := by rfl
  exact ⟨h1, h2,
    (stars_total_sum ujSample pages150 5 (fun _ => none) 0 (fun _ => none)
      none none stSample actSample 2 repos150 h1 h2).1⟩

/-- C4: the top-language list is sorted by descending aggregated byte count
(`byBytesDesc`, nonincreasing counts; a tie between two languages yields
equal adjacent counts, ordered as the stable input order) and its length is
at most the configured limit; the scenario
`{"Python": 500, "Go": 1500, "Rust": 1000}` with `N = 2` yields
`[("Go", 1500), ("Rust", 1000)]`. -/
theorem compute_top_languages_sorted
    (langFetch : RepoInfo → Option (List (String × JsonVal)))
    (repos : List RepoInfo) (limit : Nat) :
    (compute_top_languages langFetch repos limit).length ≤ limit ∧
    List.Sorted byBytesDesc (compute_top_languages langFetch repos limit) ∧
    rankLanguages [("Python", 500), ("Go", 1500), ("Rust", 1000)] 2
      = [("Go", 1500), ("Rust", 1000)] := by
  refine ⟨?_, ?_, by decide⟩
  · rw [compute_top_languages, rankLanguages, List.length_take]
    exact min_le_left _ _
  · rw [compute_top_languages, rankLanguages]
    exact List.Pairwise.sublist (List.take_sublist _ _)
      (List.sorted_insertionSort byBytesDesc (aggregateLangBytes langFetch repos))

/-- C5: a repo whose language fetch raises contributes nothing: the
top-language result over a repo list containing it equals the result with
that repo absent, and no error escapes (`compute_top_languages` is total). -/
theorem failed_lang_fetch
    (langFetch : RepoInfo → Option (List (String × JsonVal)))
    (l1 l2 : List RepoInfo) (r : RepoInfo) (limit : Nat)
    (hf : langFetch r = none) :
    compute_top_languages langFetch (l1 ++ r :: l2) limit
      = compute_top_languages langFetch (l1 ++ l2) limit := by
  rw [compute_top_languages, compute_top_languages]
  have hagg : aggregateLangBytes langFetch (l1 ++ r :: l2)
      = aggregateLangBytes langFetch (l1 ++ l2) := by
    rw [aggregateLangBytes, aggregateLangBytes, List.foldl_append,
      List.foldl_append, List.foldl_cons]
    congr 1
    rw [repoLangStep, hf]
    split <;> rfl
  rw [hagg]

/-- Witness for C5 at a concrete failing repo. -/
theorem failed_lang_fetch_witness :
    ((fun _ => none) : RepoInfo → Option (List (String × JsonVal))) riUrl
        = none ∧
    compute_top_languages (fun _ => none) ([riSample] ++ riUrl :: []) 2
      = compute_top_languages (fun _ => none) ([riSample] ++ []) 2 :=
  ⟨rfl, failed_lang_fetch (fun _ => none) [riSample] [] riUrl 2 rfl⟩

/-- A `dictGet` with default 0 is either 0 or the value of some entry. -/
theorem dictGet_zero_cases (d : List (String × Int)) (k : String) :
    dictGet d k 0 = 0 ∨ ∃ p ∈ d, dictGet d k 0 = p.2 := by
  rw [dictGet]
  cases hf : d.find? (fun p => p.1 == k) with
  | none => exact Or.inl rfl
  | some p => exact Or.inr ⟨p, List.mem_of_find?_eq_some hf, rfl⟩

/-- Every entry of `dictSet d k v` is `(k, v)` or an entry of `d`. -/
theorem mem_dictSet (d : List (String × Int)) (k : String) (v : Int)
    (q : String × Int) (hq : q ∈ dictSet d k v) : q = (k, v) ∨ q ∈ d := by
  rw [dictSet] at hq
  split at hq
  · obtain ⟨p, hp, hpe⟩ := List.mem_map.mp hq
    split at hpe
    · exact Or.inl hpe.symm
    · exact Or.inr (hpe ▸ hp)
  · rcases List.mem_append.mp hq with h | h
    · exact Or.inr h
    · exact Or.inl (by simpa using h)

/-- Step `addLangEntry` preserves positivity of all stored byte counts. -/
theorem addLangEntry_pos (acc : List (String × Int)) (p : String × JsonVal)
    (hacc : ∀ q ∈ acc, 0 < q.2) : ∀ q ∈ addLangEntry acc p, 0 < q.2 := by
  intro q hq
  rcases p with ⟨name, v⟩
  cases v with
  | other => exact hacc q hq
  | int b =>
    simp only [addLangEntry] at hq
    by_cases hb : 0 < b
    · rw [if_pos hb] at hq
      rcases mem_dictSet _ _ _ q hq with hqe | h
      · rw [hqe]
        show 0 < dictGet acc name 0 + b
        rcases dictGet_zero_cases acc name with h0 | ⟨p', hp', he⟩
        · omega
        · have := hacc p' hp'
          omega
      · exact hacc q h
    · rw [if_neg hb] at hq
      exact hacc q hq

/-- Folding a language map over a positive aggregate keeps it positive. -/
theorem foldl_addLangEntry_pos (langs : List (String × JsonVal)) :
    ∀ (acc : List (String × Int)), (∀ q ∈ acc, 0 < q.2) →
      ∀ q ∈ langs.foldl addLangEntry acc, 0 < q.2 := by
  induction langs with
  | nil => intro acc hacc; simpa using hacc
  | cons p langs ih =>
    intro acc hacc
    rw [List.foldl_cons]
    exact ih _ (addLangEntry_pos _ _ hacc)

/-- One repo step keeps the aggregate positive. -/
theorem repoLangStep_pos (langFetch : RepoInfo → Option (List (String × JsonVal)))
    (acc : List (String × Int)) (r : RepoInfo) (hacc : ∀ q ∈ acc, 0 < q.2) :
    ∀ q ∈ repoLangStep langFetch acc r, 0 < q.2 := by
  rw [repoLangStep]
  split
  · cases hf : langFetch r with
    | none => exact hacc
    | some langs => exact foldl_addLangEntry_pos langs acc hacc
  · exact hacc

/-- All byte counts in the aggregated language mapping are positive. -/
theorem aggregateLangBytes_pos
    (langFetch : RepoInfo → Option (List (String × JsonVal)))
    (repos : List RepoInfo) : ∀ q ∈ aggregateLangBytes langFetch repos, 0 < q.2 := by
  rw [aggregateLangBytes]
  have haux : ∀ (l : List RepoInfo) (acc : List (String × Int)),
      (∀ q ∈ acc, 0 < q.2) → ∀ q ∈ l.foldl (repoLangStep langFetch) acc, 0 < q.2 := by
    intro l
    induction l with
    | nil => intro acc hacc; simpa using hacc
    | cons r l ih =>
      intro acc hacc
      rw [List.foldl_cons]
      exact ih _ (repoLangStep_pos langFetch acc r hacc)
  exact haux repos [] (by simp)

/-- An entry failing the `isinstance(b, int) and b > 0` guard leaves the
aggregate unchanged. -/
theorem addLangEntry_skip (acc : List (String × Int)) (p : String × JsonVal)
    (hp : isPosIntVal p.2 = false) : addLangEntry acc p = acc := by
  rcases p with ⟨name, v⟩
  cases v with
  | other => rfl
  | int b =>
    simp only [isPosIntVal, decide_eq_false_iff_not] at hp
    simp [addLangEntry, hp]

/-- Folding a language map equals folding only its positive-int entries. -/
theorem foldl_addLangEntry_filter (langs : List (String × JsonVal)) :
    ∀ acc, langs.foldl addLangEntry acc
      = (langs.filter (fun q => isPosIntVal q.2)).foldl addLangEntry acc := by
  induction langs with
  | nil => intro acc; rfl
  | cons p langs ih =>
    intro acc
    rw [List.foldl_cons, List.filter_cons]
    cases hp : isPosIntVal p.2 with
    | true => rw [if_pos rfl, List.foldl_cons]; exact ih _
    | false =>
      rw [if_neg (by simp), addLangEntry_skip acc p hp]
      exact ih _

/-- The aggregate only sees the positive-int entries of each language map. -/
theorem aggregateLangBytes_filter
    (langFetch : RepoInfo → Option (List (String × JsonVal)))
    (repos : List RepoInfo) :
    aggregateLangBytes langFetch repos
      = aggregateLangBytes
          (fun r => (langFetch r).map
            (fun langs => langs.filter (fun q => isPosIntVal q.2))) repos := by
  rw [aggregateLangBytes, aggregateLangBytes]
  have hstep : repoLangStep langFetch
      = repoLangStep (fun r => (langFetch r).map
          (fun langs => langs.filter (fun q => isPosIntVal q.2))) := by
    funext acc r
    rw [repoLangStep, repoLangStep]
    cases hf : langFetch r with
    | none => simp [hf]
    | some langs => simp [hf, foldl_addLangEntry_filter langs acc]
  rw [hstep]

/-- C9: every byte count in the top-language list is strictly positive, and
the result is unchanged when each repo's language map is restricted to its
entries whose value is an int greater than 0 — entries that are not ints or
are not positive contribute nothing. -/
theorem compute_top_languages_positive
    (langFetch : RepoInfo → Option (List (String × JsonVal)))
    (repos : List RepoInfo) (limit : Nat) :
    (∀ p ∈ compute_top_languages langFetch repos limit, 0 < p.2) ∧
    compute_top_languages langFetch repos limit
      = compute_top_languages
          (fun r => (langFetch r).map
            (fun langs => langs.filter (fun q => isPosIntVal q.2))) repos limit := by
  constructor
  · intro p hp
    rw [compute_top_languages, rankLanguages] at hp
    have hp1 := List.mem_of_mem_take hp
    have hp2 := (List.mem_insertionSort byBytesDesc).mp hp1
    exact aggregateLangBytes_pos langFetch repos p hp2
  · rw [compute_top_languages, compute_top_languages, aggregateLangBytes_filter]

/-- Witness for C9: with a map mixing a positive int, a negative int and a
non-int value, the sole surviving entry is positive. -/
theorem compute_top_languages_positive_witness :
    ("Py", (5 : Int)) ∈ compute_top_languages wfSample [riUrl] 10 ∧
    (0 : Int) < (("Py", (5 : Int)) : String × Int).2 :=
  ⟨by decide,
    (compute_top_languages_positive wfSample [riUrl] 10).1 _ (by decide)⟩

/-- Folding with a function that never changes the accumulator returns the
initial value. -/
theorem foldl_keep {α β : Type _} (l : List β) (a : α) :
    l.foldl (fun x _ => x) a = a := by
  induction l with
  | nil => rfl
  | cons b l ih => rw [List.foldl_cons]; exact ih

/-- When every per-day search raises, the update loop leaves the day list
untouched. -/
theorem updateDays_none (days0 : List (Int × Nat)) :
    updateDays (fun _ => none) days0 = days0 := by
  rw [updateDays]
  exact foldl_keep days0 days0

/-- C6: with non-blank token and user, a user JSON carrying a login, and a
terminating repo listing — the critical calls — a run in which every
per-day commit search raises still ends in `ok` with exit code 0, and the
`days` list has its 31 contiguous dates each with commit count 0. -/
theorem all_commit_searches_fail (github_token github_user : String)
    (htok : ¬(pyStrip github_token).isEmpty = true)
    (husr : ¬(pyStrip github_user).isEmpty = true)
    (u : UserJson) (login : String) (hlogin : u.login = some login)
    (pages : Nat → List RepoJson) (fuel k : Nat) (repos : List RepoInfo)
    (hrepos : fetch_all_repos pages fuel = some (k, repos))
    (langFetch : RepoInfo → Option (List (String × JsonVal)))
    (today : Int) (prSearch issueSearch : Option Nat) :
    main (some github_token) (some github_user) (some u) pages fuel langFetch
        today (fun _ => none) prSearch issueSearch
      = MainResult.ok
          ["assets/stats.svg", "assets/languages.svg", "assets/activity.svg"] 0 ∧
    (fetch_activity_30d today (fun _ => none) prSearch issueSearch).days
      = (List.range 31).map (fun (i : Nat) => (today - 30 + (i : Int), (0 : Nat))) := by
  constructor
  · have hv : fetch_stats (some u) pages fuel langFetch today (fun _ => none)
        prSearch issueSearch
        = some ({ login := login
                  public_repos := u.public_repos.getD 0
                  followers := u.followers.getD 0
                  stars_total := stars_total repos
                  top_langs := compute_top_languages langFetch repos 10 },
                fetch_activity_30d today (fun _ => none) prSearch issueSearch) := by
      rw [fetch_stats, hrepos, hlogin]
    rw [main]
    simp only [Option.getD_some]
    rw [if_neg htok, if_neg husr, hv]
  · show updateDays (fun _ => none) (dayList (today - 30)) = _
    rw [updateDays_none, dayList]

set_option maxRecDepth 8000 in
/-- Witness for C6 at concrete token, user, user JSON and page oracle. -/
theorem all_commit_searches_fail_witness :
    ¬(pyStrip "t").isEmpty = true ∧
    main (some "t") (some "u") (some ujSample) pages150 5 (fun _ => none) 0
        (fun _ => none) none none
      = MainResult.ok
          ["assets/stats.svg", "assets/languages.svg", "assets/activity.svg"] 0 ∧
    (fetch_activity_30d 0 (fun _ => none) none none).days
      = (List.range 31).map (fun (i : Nat) => ((0 : Int) - 30 + (i : Int), (0 : Nat))) := by
  have hc := all_commit_searches_fail "t" "u" (by decide) (by decide)
    ujSample "octo" rfl pages150 5 2 repos150 rfl (fun _ => none) 0 none none
  exact ⟨by decide, hc.1, hc.2⟩

/-- C7: with `GITHUB_TOKEN` or `GITHUB_USER` unset, `main` exits with code
2 after printing the matching message to standard error, for every oracle —
the result does not depend on any network or file-system effect, and the
`configError` outcome records that nothing was written. -/
theorem missing_env_vars (github_token github_user : Option String)
    (userJson : Option UserJson) (pages : Nat → List RepoJson) (fuel : Nat)
    (langFetch : RepoInfo → Option (List (String × JsonVal)))
    (today : Int) (search : Int → Option Nat) (prSearch issueSearch : Option Nat)
    (h : github_token = none ∨ github_user = none) :
    main github_token github_user userJson pages fuel langFetch today search
        prSearch issueSearch
      = MainResult.configError
          (if (pyStrip (github_token.getD "")).isEmpty = true
            then "Missing GITHUB_TOKEN env var."
            else "Missing GITHUB_USER env var.") 2 := by
  rcases h with rfl | rfl
  · have he : (pyStrip ((none : Option String).getD "")).isEmpty = true := by decide
    rw [main, if_pos he, if_pos he]
  · by_cases htok : (pyStrip (github_token.getD "")).isEmpty = true
    · rw [main, if_pos htok, if_pos htok]
    · have he : (pyStrip ((none : Option String).getD "")).isEmpty = true := by decide
      rw [main, if_neg htok, if_pos he, if_neg htok]

/-- Witness for C7: `GITHUB_TOKEN` unset and the message resolving to the
token error. -/
theorem missing_env_vars_witness :
    main none (some "u") (some ujSample) pages150 5 (fun _ => none) 0
        (fun _ => none) none none
      = MainResult.configError
          (if (pyStrip ((none : Option String).getD "")).isEmpty = true
            then "Missing GITHUB_TOKEN env var."
            else "Missing GITHUB_USER env var.") 2 ∧
    (if (pyStrip ((none : Option String).getD "")).isEmpty = true
      then "Missing GITHUB_TOKEN env var."
      else "Missing GITHUB_USER env var.") = "Missing GITHUB_TOKEN env var." :=
  ⟨missing_env_vars none (some "u") (some ujSample) pages150 5 (fun _ => none)
      0 (fun _ => none) none none (Or.inl rfl),
    by decide⟩

/-- A string consisting only of `str.strip()` whitespace strips to the
empty string. -/
theorem pyStrip_of_all_space (s : String) (h : ∀ c ∈ s.data, isPySpace c) :
    pyStrip s = "" := by
  rw [pyStrip]
  have h1 : s.data.dropWhile isPySpace = [] :=
    List.dropWhile_eq_nil_iff.mpr (fun c hc => h c hc)
  rw [h1]
  rfl

/-- C10: an environment value that is set but all-whitespace behaves like
an unset one — `main` strips it and exits with code 2 and the matching
message; first conjunct: whitespace-only token (any user value); second:
non-blank token with whitespace-only user. -/
theorem whitespace_env_treated_as_unset (tokWs usrWs tok : String)
    (envUser : Option String) (userJson : Option UserJson)
    (pages : Nat → List RepoJson) (fuel : Nat)
    (langFetch : RepoInfo → Option (List (String × JsonVal)))
    (today : Int) (search : Int → Option Nat) (prSearch issueSearch : Option Nat)
    (htokws : ∀ c ∈ tokWs.data, isPySpace c)
    (husrws : ∀ c ∈ usrWs.data, isPySpace c)
    (htok : ¬(pyStrip tok).isEmpty = true) :
    main (some tokWs) envUser userJson pages fuel langFetch today search
        prSearch issueSearch
      = MainResult.configError "Missing GITHUB_TOKEN env var." 2 ∧
    main (some tok) (some usrWs) userJson pages fuel langFetch today search
        prSearch issueSearch
      = MainResult.configError "Missing GITHUB_USER env var." 2 := by
  constructor
  · have he : (pyStrip ((some tokWs).getD "")).isEmpty = true := by
      rw [Option.getD_some, pyStrip_of_all_space tokWs htokws]
      rfl
    rw [main, if_pos he]
  · have he : (pyStrip usrWs).isEmpty = true := by
      rw [pyStrip_of_all_space usrWs husrws]
      rfl
    rw [main]
    simp only [Option.getD_some]
    rw [if_neg htok, if_pos he]

/-- Witness for C10 at concrete whitespace-only values. -/
theorem whitespace_env_treated_as_unset_witness :
    (∀ c ∈ ("  " : String).data, isPySpace c) ∧
    main (some "  ") (some "u") (some ujSample) pages150 5 (fun _ => none) 0
        (fun _ => none) none none
      = MainResult.configError "Missing GITHUB_TOKEN env var." 2 ∧
    main (some "x") (some " \t ") (some ujSample) pages150 5 (fun _ => none) 0
        (fun _ => none) none none
      = MainResult.configError "Missing GITHUB_USER env var." 2 := by
  have hc := whitespace_env_treated_as_unset "  " " \t " "x" (some "u")
    (some ujSample) pages150 5 (fun _ => none) 0 (fun _ => none) none none
    (by decide) (by decide) (by decide)
  exact ⟨by decide, hc.1, hc.2⟩

/-- The five chained replacements act on a single character exactly as the
per-character escaping table: `&` is replaced first, and no later
replacement touches the `&` characters its entities introduce, because the
entity texts contain none of `<`, `>`, `"`, `'`. -/
theorem escChar_of_replace1 (a : Char) :
    replace1 (replace1 (replace1 (replace1 (replace1
        [a] '&' ampRep) '<' ltRep) '>' gtRep) '"' quotRep) '\'' aposRep
      = escChar a := by
  by_cases h1 : a = '&'
  · subst h1; decide
  by_cases h2 : a = '<'
  · subst h2; decide
  by_cases h3 : a = '>'
  · subst h3; decide
  by_cases h4 : a = '"'
  · subst h4; decide
  by_cases h5 : a = '\''
  · subst h5; decide
  simp [replace1, escChar, h1, h2, h3, h4, h5]

/-- Function `_escape` distributes over concatenation (each `str.replace` does). -/
theorem _escape_append (x y : List Char) :
    _escape (x ++ y) = _escape x ++ _escape y := by
  simp [_escape, replace1]

/-- Function `_escape` is exactly the per-character escaping map. -/
theorem _escape_eq_flatMap (s : List Char) : _escape s = s.flatMap escChar := by
  induction s with
  | nil => rfl
  | cons a s ih =>
    have hsplit : (a :: s) = [a] ++ s := rfl
    rw [hsplit, _escape_append, ih]
    have hone : _escape [a] = escChar a := escChar_of_replace1 a
    rw [hone, List.flatMap_append, List.flatMap_singleton]

/-- C8: `_escape` replaces each occurrence of the five characters `&`, `<`,
`>`, `"`, `'` by its XML entity (it equals the per-character entity map,
the `&` of an emitted entity being entity text, not a raw occurrence), and
its output — hence every user-controlled string embedded through it —
contains no raw `<`, `>`, `"` or `'` at all. -/
theorem escape_replaces_specials (s : List Char) :
    _escape s = s.flatMap escChar ∧
    ∀ c ∈ _escape s, c ≠ '<' ∧ c ≠ '>' ∧ c ≠ '"' ∧ c ≠ '\'' := by
  refine ⟨_escape_eq_flatMap s, ?_⟩
  intro c hc
  rw [_escape_eq_flatMap] at hc
  obtain ⟨a, _, hca⟩ := List.mem_flatMap.mp hc
  rw [escChar] at hca
  by_cases h1 : a = '&'
  · rw [if_pos h1] at hca
    have hall : ∀ x ∈ ampRep, x ≠ '<' ∧ x ≠ '>' ∧ x ≠ '"' ∧ x ≠ '\'' := by decide
    exact hall c hca
  rw [if_neg h1] at hca
  by_cases h2 : a = '<'
  · rw [if_pos h2] at hca
    have hall : ∀ x ∈ ltRep, x ≠ '<' ∧ x ≠ '>' ∧ x ≠ '"' ∧ x ≠ '\'' := by decide
    exact hall c hca
  rw [if_neg h2] at hca
  by_cases h3 : a = '>'
  · rw [if_pos h3] at hca
    have hall : ∀ x ∈ gtRep, x ≠ '<' ∧ x ≠ '>' ∧ x ≠ '"' ∧ x ≠ '\'' := by decide
    exact hall c hca
  rw [if_neg h3] at hca
  by_cases h4 : a = '"'
  · rw [if_pos h4] at hca
    have hall : ∀ x ∈ quotRep, x ≠ '<' ∧ x ≠ '>' ∧ x ≠ '"' ∧ x ≠ '\'' := by decide
    exact hall c hca
  rw [if_neg h4] at hca
  by_cases h5 : a = '\''
  · rw [if_pos h5] at hca
    have hall : ∀ x ∈ aposRep, x ≠ '<' ∧ x ≠ '>' ∧ x ≠ '"' ∧ x ≠ '\'' := by decide
    exact hall c hca
  rw [if_neg h5] at hca
  have hcaa : c = a := by simpa using hca
  subst hcaa
  exact ⟨h2, h3, h4, h5⟩

/-- Witness for C8 on a string containing every special character. -/
theorem escape_replaces_specials_witness :
    _escape ('a' :: '<' :: '&' :: '"' :: '\'' :: '>' :: [])
      = ('a' :: '<' :: '&' :: '"' :: '\'' :: '>' :: []).flatMap escChar ∧
    ('&' ∈ _escape ('a' :: '<' :: '&' :: '"' :: '\'' :: '>' :: [])) ∧
    ('&' ≠ '<' ∧ '&' ≠ '>' ∧ '&' ≠ '"' ∧ '&' ≠ '\'') := by
  have hc := escape_replaces_specials ('a' :: '<' :: '&' :: '"' :: '\'' :: '>' :: [])
  exact ⟨hc.1, by decide, hc.2 '&' (by decide)⟩

end ProfileSvgs
